import Mathlib

/-
Shallow embedding of the cargo-attach artifact resolution engine
(src/lib.rs, src/conf.rs, src/args.rs).

The configuration tree mirrors toml::Table / toml::Value as used by the
code: an association list from string keys to values, where only the
string and table shapes are ever inspected (everything else is opaque).
External collaborators (the cargo-platform selector parser and matcher,
the shlex shell tokenizer, the filesystem walk and file reads) are
modelled as explicit parameters, per the spec's out-of-scope list.
Panicking unwraps in the source are modelled by explicit panic outcomes.
-/

namespace CargoAttach

/-- Model of toml::Value restricted to the shapes the program inspects. -/
inductive TomlValue where
  | str : String → TomlValue
  | table : List (String × TomlValue) → TomlValue
  | other : TomlValue

/-- Model of toml::Table: an association list of keys to values. -/
abbrev Table := List (String × TomlValue)

/-- Table lookup, mirroring toml::Table::get (first binding of the key). -/
def tableGet (t : Table) (k : String) : Option TomlValue :=
  (t.find? (fun e => e.1 == k)).map (fun e => e.2)

/-- Mirror of toml::Value::as_table. -/
def TomlValue.as_table : TomlValue → Option Table
  | .table t => some t
  | _ => none

/-- Mirror of toml::Value::as_str. -/
def TomlValue.as_str : TomlValue → Option String
  | .str s => some s
  | _ => none

/-- Mirror of toml::Value::get with a string index: only succeeds on tables. -/
def TomlValue.vget (v : TomlValue) (k : String) : Option TomlValue :=
  match v with
  | .table t => tableGet t k
  | _ => none

/-- Mirror of str::strip_prefix: drop the literal prefix if present,
computed over the character lists of the two strings. -/
def stripPrefixStr (s pre : String) : Option String :=
  if pre.toList.isPrefixOf s.toList then
    some (String.mk (s.toList.drop pre.toList.length))
  else none

/-- Outcome classification of std::fs::read_to_string for load_config:
the not-found error kind versus any other error. -/
inductive ReadErr where
  | notFound
  | other
deriving DecidableEq, Repr

/-- Embedding of conf::load_config (src/conf.rs lines 10-24). The file read
outcome and the opaque TOML parser are parameters; path is the formatted
config path string. -/
def load_config (readRes : Except ReadErr String) (parse : String → Option Table)
    (path : String) : Except String (Option Table) :=
  match readRes with
  | .error .notFound => .ok none
  | .error .other => .error ("could not read " ++ path)
  | .ok file =>
    match parse file with
    | none => .error ("could not parse " ++ path)
    | some table => .ok (some table)

/-- Embedding of conf::find_build_target (src/conf.rs lines 27-32). -/
def find_build_target (config : Table) : Option String :=
  ((tableGet config "build").bind TomlValue.as_table).bind
    (fun t => (tableGet t "target").bind TomlValue.as_str)

/-- The selector filter closure inside conf::find_probe_args (lines 43-53):
keep the entry when no target constraint is known, when the selector fails
to parse as a platform, or when the parsed platform matches the target. -/
def selectorKeeps {α : Type} (pf : String → Option α) (pm : α → String → Bool)
    (target : Option String) (selector : String) : Bool :=
  match target with
  | none => true
  | some t =>
    match pf selector with
    | none => true
    | some platform => pm platform t

/-- The entries of the target table surviving the selector filter in
conf::find_probe_args. -/
def keptEntries {α : Type} (pf : String → Option α) (pm : α → String → Bool)
    (target : Option String) (targets : Table) : Table :=
  targets.filter (fun e => selectorKeeps pf pm target e.1)

/-- The runner strings extracted in conf::find_probe_args (lines 49-55):
from each kept entry read its runner string field and strip the literal
probe-rs run prefix. -/
def strippedRunners {α : Type} (pf : String → Option α) (pm : α → String → Bool)
    (target : Option String) (targets : Table) : List String :=
  ((keptEntries pf pm target targets).filterMap
      (fun e => (TomlValue.vget e.2 "runner").bind TomlValue.as_str)).filterMap
    (fun r => stripPrefixStr r "probe-rs run ")

/-- Embedding of conf::find_probe_args (src/conf.rs lines 35-70). The
platform selector parser pf, the platform matcher pm and the shlex
tokenizer sh are opaque parameters. -/
def find_probe_args {α : Type} (pf : String → Option α) (pm : α → String → Bool)
    (sh : String → Option (List String)) (config : Table) (target : Option String) :
    Except String (List String) :=
  match (tableGet config "target").bind TomlValue.as_table with
  | none => .ok []
  | some targets =>
    let runners := strippedRunners pf pm target targets
    if 1 < runners.length then
      .error "found more than one runner configuration"
    else
      match runners with
      | [runner] =>
        match sh runner with
        | none => .error "could not parse probe-rs arguments"
        | some probe_args => .ok probe_args
      | _ => .ok []

/-- A directory entry as delivered by the walkdir iterator: its full path
as a component list, its file-type flag, and the outcome of reading its
modification time (none models an unreadable metadata read, which the
source unwraps). -/
structure DirEntry where
  path : List String
  is_file : Bool
  mtime : Option Nat
deriving DecidableEq, Repr

/-- An item of the walk stream: none models an errored walk entry, which
the source discards with filter_map over Result::ok. -/
abbrev WalkItem := Option DirEntry

/-- Mirror of walkdir DirEntry::file_name: the last path component. -/
def fileName (p : List String) : String := p.getLastD ""

/-- The target_files stream of find_executable (src/lib.rs lines 97-101):
drop errored walk items, keep regular files. -/
def walkFiles (walk : List WalkItem) : List DirEntry :=
  (walk.filterMap id).filter (fun e => e.is_file)

/-- The first filter of find_executable (src/lib.rs line 104): keep files
whose base name equals one of the binary names. -/
def namedFiles (binary_names : List String) (walk : List WalkItem) : List DirEntry :=
  (walkFiles walk).filter (fun e => binary_names.any (fun x => x == fileName e.path))

/-- Mirror of the path decomposition at src/lib.rs line 106: strip the
base prefix from the path, then take the parent. none models a panic of
either unwrap (base not a prefix, or an empty relative path). -/
def stripParent (base p : List String) : Option (List String) :=
  if base.isPrefixOf p then
    match p.drop base.length with
    | [] => none
    | rel => some rel.dropLast
  else none

/-- The second filter of find_executable (src/lib.rs lines 105-117): the
build-mode and target-triple directory component tests on the containing
directory chain. none models the decomposition panicking. -/
def entryKeep (base : List String) (build_mode build_target : Option String)
    (e : DirEntry) : Option Bool :=
  match stripParent base e.path with
  | none => none
  | some dirs =>
    let matches_build_mode :=
      match build_mode with
      | none => true
      | some m => dirs.any (fun c => c == m)
    let matches_target_triple :=
      match build_target with
      | none => true
      | some t => dirs.any (fun c => c == t)
    some (matches_build_mode && matches_target_triple)

/-- The surviving candidates of find_executable: name-matched files that
pass the build-mode and target-triple filters. -/
def survivors (base : List String) (binary_names : List String)
    (build_mode build_target : Option String) (walk : List WalkItem) : List DirEntry :=
  (namedFiles binary_names walk).filter
    (fun e => (entryKeep base build_mode build_target e).getD false)

/-- Outcome of the locator: a panic of one of its unwraps, no candidate,
or the selected path. -/
inductive LocOutcome where
  | panic : LocOutcome
  | notFound : LocOutcome
  | found : List String → LocOutcome
deriving DecidableEq, Repr

/-- Mirror of Iterator::max_by_key folding left to right, where a later
element replaces the current maximum when its key is at least as large
(max_by_key returns the last maximal element). -/
def maxByKeyAux (key : DirEntry → Nat) (cur : DirEntry) : List DirEntry → DirEntry
  | [] => cur
  | y :: ys => maxByKeyAux key (if key cur ≤ key y then y else cur) ys

/-- Embedding of find_executable (src/lib.rs lines 91-122). The walk
stream is a parameter. A panic outcome arises when a name-matched entry
fails path decomposition (the strip_prefix and parent unwraps, line 106)
or when a surviving candidate has an unreadable modification time (the
metadata and modified unwraps, line 120). -/
def find_executable (base : List String) (walk : List WalkItem)
    (binary_names : List String) (build_mode build_target : Option String) : LocOutcome :=
  if (namedFiles binary_names walk).any
      (fun e => (entryKeep base build_mode build_target e).isNone) then
    .panic
  else if (survivors base binary_names build_mode build_target walk).any
      (fun e => e.mtime.isNone) then
    .panic
  else
    match survivors base binary_names build_mode build_target walk with
    | [] => .notFound
    | x :: xs => .found (maxByKeyAux (fun e => e.mtime.getD 0) x xs).path

/-- A cargo target as consumed by attach: its name and kind flags. -/
structure CTarget where
  name : String
  is_bin : Bool
  is_example : Bool
deriving DecidableEq, Repr

/-- The root package: its name and declared targets. -/
structure Package where
  name : String
  targets : List CTarget
deriving DecidableEq, Repr

/-- The parsed command line (src/args.rs). -/
structure Args where
  release : Bool
  debug : Bool
  target : Option String
  bin : Option String
  exampl : Option String
  probe_args : List String

/-- Outcome of attach: an error message, a panic from the locator, or the
process handoff to probe-rs attach with the forwarded arguments and the
executable path. -/
inductive AttachOutcome where
  | err : String → AttachOutcome
  | panic : AttachOutcome
  | exec : List String → List String → AttachOutcome
deriving DecidableEq, Repr

/-- The build_mode computation of attach (src/lib.rs lines 45-51). -/
def build_mode_of (args : Args) : Option String :=
  if args.release then some "release"
  else if args.debug then some "debug"
  else none

/-- The binary_names computation of attach (src/lib.rs lines 36-43). -/
def binary_names_of (args : Args) (package : Package) : List String :=
  match args.bin.or args.exampl with
  | some binary => [binary]
  | none =>
    (package.targets.filter (fun t => t.is_bin || t.is_example)).map (fun t => t.name)

/-- The build_target computation of attach (src/lib.rs lines 53-61). -/
def resolve_build_target (argsTarget : Option String) (config : Option Table) :
    Option String :=
  if argsTarget.isNone then
    match config with
    | some c => find_build_target c
    | none => none
  else argsTarget

/-- Embedding of attach (src/lib.rs lines 13-89), after the metadata query
resolved the root package and the output directory. loadRes is the
outcome load_config would produce for this package; the walk stream and
the opaque collaborators of find_probe_args are parameters. -/
def attach {α : Type} (pf : String → Option α) (pm : α → String → Bool)
    (sh : String → Option (List String)) (args : Args) (package : Package)
    (target_directory : List String) (loadRes : Except String (Option Table))
    (walk : List WalkItem) : AttachOutcome :=
  if args.release && args.debug then
    .err "the release and debug flags may not be used together"
  else if args.bin.isSome && args.exampl.isSome then
    .err "the bin and example options may not be used together"
  else
    match (if args.probe_args.isEmpty || args.target.isNone then loadRes
           else .ok none) with
    | .error e => .err e
    | .ok config =>
      let binary_names := binary_names_of args package
      let build_mode := build_mode_of args
      let build_target := resolve_build_target args.target config
      match (if args.probe_args.isEmpty then
               match config with
               | some c => find_probe_args pf pm sh c build_target
               | none => .ok []
             else .ok args.probe_args) with
      | .error e => .err e
      | .ok probe_args =>
        match find_executable target_directory walk binary_names build_mode build_target with
        | .panic => .panic
        | .notFound =>
          .err ("no matching executable found for package " ++ package.name)
        | .found p => .exec probe_args p

theorem maxByKeyAux_mem (key : DirEntry → Nat) (cur : DirEntry) (l : List DirEntry) :
    maxByKeyAux key cur l ∈ cur :: l := by
  induction l generalizing cur with
  | nil => simp [maxByKeyAux]
  | cons y ys ih =>
    rw [maxByKeyAux]
    have h := ih (if key cur ≤ key y then y else cur)
    rcases List.mem_cons.1 h with h1 | h1
    · rw [h1]
      split <;> simp
    · simp [List.mem_cons.2 (Or.inr (List.mem_cons.2 (Or.inr h1)))]

theorem maxByKeyAux_le (key : DirEntry → Nat) (cur : DirEntry) (l : List DirEntry) :
    ∀ x ∈ cur :: l, key x ≤ key (maxByKeyAux key cur l) := by
  induction l generalizing cur with
  | nil =>
    intro x hx
    simp only [List.mem_singleton] at hx
    simp [maxByKeyAux, hx]
  | cons y ys ih =>
    intro x hx
    rw [maxByKeyAux]
    have hcur : key cur ≤ key (if key cur ≤ key y then y else cur) := by
      split <;> simp_all
    have hy : key y ≤ key (if key cur ≤ key y then y else cur) := by
      split
      · exact le_refl _
      · omega
    have htop : key (if key cur ≤ key y then y else cur) ≤
        key (maxByKeyAux key (if key cur ≤ key y then y else cur) ys) :=
      ih _ _ (List.mem_cons_self _ _)
    rcases List.mem_cons.1 hx with h1 | h1
    · subst h1
      exact le_trans hcur htop
    · rcases List.mem_cons.1 h1 with h2 | h2
      · subst h2
        exact le_trans hy htop
      · exact ih _ x (List.mem_cons.2 (Or.inr h2))

theorem find_executable_no_panic (base binary_names : List String)
    (build_mode build_target : Option String) (walk : List WalkItem)
    (h1 : ((namedFiles binary_names walk).any
      (fun e => (entryKeep base build_mode build_target e).isNone)) = false)
    (h2 : ((survivors base binary_names build_mode build_target walk).any
      (fun e => e.mtime.isNone)) = false) :
    find_executable base walk binary_names build_mode build_target =
      match survivors base binary_names build_mode build_target walk with
      | [] => .notFound
      | x :: xs => .found (maxByKeyAux (fun e => e.mtime.getD 0) x xs).path := by
  rw [find_executable, h1, h2]
  simp

/-- C1: among surviving candidates with pairwise-distinct modification
timestamps (more than one of them), find_executable returns the one with
the strictly greatest modification timestamp; with no surviving candidate
it returns no path. Both parts assume the locator does not panic on its
inputs (path decomposition succeeds for name-matched entries, and for the
second part every survivor has a readable modification time). -/
theorem find_executable_returns_latest (base binary_names : List String)
    (build_mode build_target : Option String) (walk : List WalkItem)
    (hdec : ∀ e ∈ namedFiles binary_names walk,
      (entryKeep base build_mode build_target e).isSome = true) :
    (survivors base binary_names build_mode build_target walk = [] →
      find_executable base walk binary_names build_mode build_target = .notFound) ∧
    ((∀ e ∈ survivors base binary_names build_mode build_target walk,
        e.mtime.isSome = true) →
     (survivors base binary_names build_mode build_target walk).Pairwise
        (fun a b => a.mtime.getD 0 ≠ b.mtime.getD 0) →
     1 < (survivors base binary_names build_mode build_target walk).length →
     ∃ e, e ∈ survivors base binary_names build_mode build_target walk ∧
       find_executable base walk binary_names build_mode build_target = .found e.path ∧
       ∀ e' ∈ survivors base binary_names build_mode build_target walk,
         e' ≠ e → e'.mtime.getD 0 < e.mtime.getD 0) := by
  have h1 : ((namedFiles binary_names walk).any
      (fun e => (entryKeep base build_mode build_target e).isNone)) = false := by
    rw [List.any_eq_false]
    intro e he
    rcases Option.isSome_iff_exists.1 (hdec e he) with ⟨b, hb⟩
    simp [hb]
  constructor
  · intro hemp
    rw [find_executable_no_panic base binary_names build_mode build_target walk h1
      (by rw [hemp]; rfl), hemp]
  · intro hmt hpw hlen
    have h2 : ((survivors base binary_names build_mode build_target walk).any
        (fun e => e.mtime.isNone)) = false := by
      rw [List.any_eq_false]
      intro e he
      rcases Option.isSome_iff_exists.1 (hmt e he) with ⟨b, hb⟩
      simp [hb]
    have hr := find_executable_no_panic base binary_names build_mode build_target walk h1 h2
    rcases heq : survivors base binary_names build_mode build_target walk with _ | ⟨x, xs⟩
    · rw [heq] at hlen
      simp at hlen
    · rw [heq] at hr hpw
      refine ⟨maxByKeyAux (fun e => e.mtime.getD 0) x xs, ?_, hr, ?_⟩
      · exact maxByKeyAux_mem _ x xs
      · intro e' he' hne
        have hle : e'.mtime.getD 0 ≤
            (maxByKeyAux (fun e => e.mtime.getD 0) x xs).mtime.getD 0 :=
          maxByKeyAux_le (fun e => e.mtime.getD 0) x xs e' he'
        have hmem : maxByKeyAux (fun e => e.mtime.getD 0) x xs ∈ x :: xs :=
          maxByKeyAux_mem _ x xs
        have hnekey := List.Pairwise.forall (fun a b h => h.symm) hpw he' hmem hne
        omega

theorem find_executable_returns_latest_witness :
    ∃ e, e ∈ survivors ["t"] ["app"] none none
        [some ⟨["t", "debug", "app"], true, some 3⟩,
         some ⟨["t", "release", "app"], true, some 7⟩] ∧
      find_executable ["t"]
        [some ⟨["t", "debug", "app"], true, some 3⟩,
         some ⟨["t", "release", "app"], true, some 7⟩] ["app"] none none =
        .found e.path ∧
      ∀ e' ∈ survivors ["t"] ["app"] none none
          [some ⟨["t", "debug", "app"], true, some 3⟩,
           some ⟨["t", "release", "app"], true, some 7⟩],
        e' ≠ e → e'.mtime.getD 0 < e.mtime.getD 0 :=
  (find_executable_returns_latest ["t"] ["app"] none none
      [some ⟨["t", "debug", "app"], true, some 3⟩,
       some ⟨["t", "release", "app"], true, some 7⟩]
      (by decide)).2 (by decide) (by decide) (by decide)

/-- C3 counterexample: a surviving candidate whose modification time
cannot be read is not skipped; it makes find_executable panic (the
metadata and modified unwraps at src/lib.rs line 120), whereas the claim
predicts the search to continue and return the other, readable candidate. -/
theorem find_executable_metadata_panic_cex :
    find_executable ["t"]
      [some ⟨["t", "debug", "app"], true, none⟩,
       some ⟨["t", "release", "app"], true, some 5⟩] ["app"] none none = .panic ∧
    find_executable ["t"]
      [some ⟨["t", "release", "app"], true, some 5⟩] ["app"] none none =
      .found ["t", "release", "app"] ∧
    LocOutcome.panic ≠ LocOutcome.found ["t", "release", "app"] :=
  ⟨by decide, by decide, by decide⟩

/-- C3 amended: entries that error during the walk enumeration itself are
dropped by the ok-filter (src/lib.rs line 100) and never affect the
search, but a surviving candidate whose modification time cannot be read
makes find_executable panic, aborting the whole search, rather than being
treated as absent. -/
theorem find_executable_walk_errors_skipped (base binary_names : List String)
    (build_mode build_target : Option String) (walk walk2 : List WalkItem) :
    (walk.filterMap id = walk2.filterMap id →
      find_executable base walk binary_names build_mode build_target =
        find_executable base walk2 binary_names build_mode build_target) ∧
    ((survivors base binary_names build_mode build_target walk).any
        (fun e => e.mtime.isNone) = true →
      find_executable base walk binary_names build_mode build_target = .panic) := by
  constructor
  · intro h
    simp only [find_executable, survivors, namedFiles, walkFiles, h]
  · intro h
    rw [find_executable, h]
    simp

theorem find_executable_walk_errors_skipped_witness :
    find_executable ["t"]
      [none, some ⟨["t", "debug", "app"], true, some 3⟩] ["app"] none none =
      find_executable ["t"]
        [some ⟨["t", "debug", "app"], true, some 3⟩] ["app"] none none :=
  (find_executable_walk_errors_skipped ["t"] ["app"] none none
      [none, some ⟨["t", "debug", "app"], true, some 3⟩]
      [some ⟨["t", "debug", "app"], true, some 3⟩]).1 (by decide)

/-- C5: a name-matched file of the walk whose containing directory chain
relative to the output root is dirs survives the locator's filter iff the
build-mode constraint is absent or some component of dirs equals the
build-mode string, and the target-triple constraint is absent or some
component of dirs equals the target-triple string. -/
theorem survivors_kept_iff (base binary_names : List String)
    (build_mode build_target : Option String) (walk : List WalkItem)
    (e : DirEntry) (dirs : List String)
    (hmem : e ∈ namedFiles binary_names walk)
    (hstrip : stripParent base e.path = some dirs) :
    e ∈ survivors base binary_names build_mode build_target walk ↔
      ((build_mode = none ∨ ∃ m, build_mode = some m ∧ m ∈ dirs) ∧
       (build_target = none ∨ ∃ t, build_target = some t ∧ t ∈ dirs)) := by
  rcases build_mode with _ | m <;> rcases build_target with _ | t <;>
    simp [survivors, List.mem_filter, entryKeep, hstrip, hmem, List.any_eq_true]

theorem survivors_kept_iff_witness :
    ((⟨["t", "th", "release", "app"], true, some 3⟩ : DirEntry) ∈
      survivors ["t"] ["app"] (some "release") (some "th")
        [some ⟨["t", "th", "release", "app"], true, some 3⟩]) ↔
      (((some "release" : Option String) = none ∨
        ∃ m, (some "release" : Option String) = some m ∧ m ∈ ["th", "release"]) ∧
       ((some "th" : Option String) = none ∨
        ∃ t, (some "th" : Option String) = some t ∧ t ∈ ["th", "release"])) :=
  survivors_kept_iff ["t"] ["app"] (some "release") (some "th")
    [some ⟨["t", "th", "release", "app"], true, some 3⟩]
    ⟨["t", "th", "release", "app"], true, some 3⟩ ["th", "release"]
    (by decide) (by decide)

/-- C10: when every file entry of the walk lies strictly below the output
root (its path is the root followed by a nonempty relative component
list), the path decomposition of the locator's filter succeeds on every
file entry, so the strip_prefix and parent unwraps never panic and the
panic guard over the name-matched entries is false. -/
theorem strip_parent_never_panics (base binary_names : List String)
    (build_mode build_target : Option String) (walk : List WalkItem)
    (hroot : ∀ e ∈ walkFiles walk, ∃ rel, rel ≠ [] ∧ e.path = base ++ rel) :
    (∀ e ∈ walkFiles walk, (stripParent base e.path).isSome = true) ∧
    ((namedFiles binary_names walk).any
      (fun e => (entryKeep base build_mode build_target e).isNone)) = false := by
  have hsome : ∀ e ∈ walkFiles walk, (stripParent base e.path).isSome = true := by
    intro e he
    rcases hroot e he with ⟨rel, hne, hp⟩
    rw [hp, stripParent]
    rw [if_pos (by simp [List.isPrefixOf_iff_prefix])]
    rw [List.drop_left]
    rcases rel with _ | ⟨c, cs⟩
    · exact absurd rfl hne
    · rfl
  refine ⟨hsome, ?_⟩
  rw [List.any_eq_false]
  intro e he
  have hewf : e ∈ walkFiles walk := List.mem_of_mem_filter he
  rcases Option.isSome_iff_exists.1 (hsome e hewf) with ⟨dirs, hdirs⟩
  simp [entryKeep, hdirs]

theorem strip_parent_never_panics_witness :
    (∀ e ∈ walkFiles [some ⟨["t", "debug", "app"], true, some 3⟩],
      (stripParent ["t"] e.path).isSome = true) ∧
    ((namedFiles ["app"] [some ⟨["t", "debug", "app"], true, some 3⟩]).any
      (fun e => (entryKeep ["t"] none none e).isNone)) = false :=
  strip_parent_never_panics ["t"] ["app"] none none
    [some ⟨["t", "debug", "app"], true, some 3⟩]
    (by
      intro e he
      have hh : e = ⟨["t", "debug", "app"], true, some 3⟩ := by
        simpa [walkFiles] using he
      subst hh
      exact ⟨["debug", "app"], by decide, rfl⟩)

/-- C4: an entry of the configuration's target table is kept by the
runner selector filter iff no build-target constraint is known, or its
selector fails to parse as a platform selector, or the parsed selector
matches the constraint; and with no constraint every entry is kept. -/
theorem keptEntries_iff {α : Type} (pf : String → Option α) (pm : α → String → Bool)
    (target : Option String) (targets : Table) :
    (∀ e, e ∈ keptEntries pf pm target targets ↔
      (e ∈ targets ∧
        (target = none ∨ pf e.1 = none ∨
         ∃ p t, target = some t ∧ pf e.1 = some p ∧ pm p t = true))) ∧
    keptEntries pf pm none targets = targets := by
  constructor
  · intro e
    rw [keptEntries, List.mem_filter]
    rcases target with _ | t
    · simp [selectorKeeps]
    · rcases hpf : pf e.1 with _ | p
      · simp [selectorKeeps, hpf]
      · simp [selectorKeeps, hpf]
  · simp [keptEntries, selectorKeeps]

theorem keptEntries_iff_witness :
    (("sel", TomlValue.str "v") ∈
      keptEntries (fun _ => (none : Option Unit)) (fun _ _ => true) (some "tr")
        [("sel", TomlValue.str "v")] ↔
      (("sel", TomlValue.str "v") ∈ [("sel", TomlValue.str "v")] ∧
        ((some "tr" : Option String) = none ∨
         (fun _ => (none : Option Unit)) "sel" = none ∨
         ∃ p t, (some "tr" : Option String) = some t ∧
           (fun _ => (none : Option Unit)) "sel" = some p ∧
           (fun _ _ => true) p t = true))) :=
  (keptEntries_iff (fun _ => (none : Option Unit)) (fun _ _ => true) (some "tr")
    [("sel", TomlValue.str "v")]).1 ("sel", TomlValue.str "v")

/-- C2: with a target table present in the configuration, find_probe_args
fails with the ambiguity error when more than one selector-matched,
prefix-stripped runner string remains; tokenizes a unique remaining
runner string with the shlex tokenizer, reporting tokenizer failure as
the malformed-arguments error; and returns the empty argument list, not
an error, when no runner string remains. -/
theorem find_probe_args_cases {α : Type} (pf : String → Option α)
    (pm : α → String → Bool) (sh : String → Option (List String))
    (config : Table) (target : Option String) (tbl : Table)
    (htbl : (tableGet config "target").bind TomlValue.as_table = some tbl) :
    (1 < (strippedRunners pf pm target tbl).length →
      find_probe_args pf pm sh config target =
        .error "found more than one runner configuration") ∧
    (∀ r, strippedRunners pf pm target tbl = [r] →
      ((sh r = none →
         find_probe_args pf pm sh config target =
           .error "could not parse probe-rs arguments") ∧
       (∀ a, sh r = some a → find_probe_args pf pm sh config target = .ok a))) ∧
    (strippedRunners pf pm target tbl = [] →
      find_probe_args pf pm sh config target = .ok []) := by
  have hfp : find_probe_args pf pm sh config target =
      (if 1 < (strippedRunners pf pm target tbl).length then
        .error "found more than one runner configuration"
      else
        match strippedRunners pf pm target tbl with
        | [runner] =>
          match sh runner with
          | none => .error "could not parse probe-rs arguments"
          | some probe_args => .ok probe_args
        | _ => .ok []) := by
    rw [find_probe_args, htbl]
  refine ⟨?_, ?_, ?_⟩
  · intro h
    rw [hfp, if_pos h]
  · intro r hr
    have hlen : ¬ 1 < (strippedRunners pf pm target tbl).length := by
      rw [hr]
      simp
    constructor
    · intro hsh
      rw [hfp, if_neg hlen, hr]
      simp [hsh]
    · intro a ha
      rw [hfp, if_neg hlen, hr]
      simp [ha]
  · intro h0
    have hlen : ¬ 1 < (strippedRunners pf pm target tbl).length := by
      rw [h0]
      simp
    rw [hfp, if_neg hlen, h0]

theorem find_probe_args_cases_witness :
    find_probe_args (fun _ => (none : Option Unit)) (fun _ _ => true)
      (fun _ => some ["--chip", "X"])
      [("target", TomlValue.table [("sel", TomlValue.table
          [("runner", TomlValue.str "probe-rs run --chip X")])])] none =
      .ok ["--chip", "X"] :=
  ((find_probe_args_cases (fun _ => (none : Option Unit)) (fun _ _ => true)
      (fun _ => some ["--chip", "X"])
      [("target", TomlValue.table [("sel", TomlValue.table
          [("runner", TomlValue.str "probe-rs run --chip X")])])] none
      [("sel", TomlValue.table [("runner", TomlValue.str "probe-rs run --chip X")])]
      rfl).2.1 "--chip X" (by decide)).2 ["--chip", "X"] rfl

/-- C6: load_config yields no configuration and no error when the file is
absent, fails with the read error exactly when the read fails for a
reason other than not-found, and on a successful read fails with the
parse error exactly when the content does not parse as TOML, otherwise
returning the parsed table. -/
theorem load_config_cases (readRes : Except ReadErr String)
    (parse : String → Option Table) (path : String) :
    (readRes = .error .notFound → load_config readRes parse path = .ok none) ∧
    (readRes = .error .other →
      load_config readRes parse path = .error ("could not read " ++ path)) ∧
    (∀ s, readRes = .ok s →
      ((parse s = none →
         load_config readRes parse path = .error ("could not parse " ++ path)) ∧
       (∀ t, parse s = some t → load_config readRes parse path = .ok (some t)))) := by
  refine ⟨?_, ?_, ?_⟩
  · intro h
    subst h
    rfl
  · intro h
    subst h
    rfl
  · intro s h
    subst h
    constructor
    · intro hp
      simp [load_config, hp]
    · intro t hp
      simp [load_config, hp]

theorem load_config_cases_witness :
    load_config (.error .notFound) (fun _ => none) "p" = .ok none :=
  (load_config_cases (.error .notFound) (fun _ => none) "p").1 rfl

/-- C7: an explicit command-line target triple takes precedence in
resolve_build_target; otherwise the resolved build target is the
configuration lookup find_build_target, which is absent whenever the
configuration lacks a build table and otherwise reads the target entry
of that table as a string. -/
theorem resolve_build_target_spec (argsTarget : Option String)
    (config : Option Table) :
    (∀ t, argsTarget = some t →
      resolve_build_target argsTarget config = some t) ∧
    (argsTarget = none →
      resolve_build_target argsTarget config = config.bind find_build_target) ∧
    (∀ c, (tableGet c "build").bind TomlValue.as_table = none →
      find_build_target c = none) ∧
    (∀ c b, (tableGet c "build").bind TomlValue.as_table = some b →
      find_build_target c = (tableGet b "target").bind TomlValue.as_str) := by
  refine ⟨?_, ?_, ?_, ?_⟩
  · intro t h
    subst h
    rfl
  · intro h
    subst h
    rcases config with _ | c <;> rfl
  · intro c h
    simp [find_build_target, h]
  · intro c b h
    simp [find_build_target, h]

theorem resolve_build_target_spec_witness :
    resolve_build_target (some "thumbv7em-none-eabihf") none =
      some "thumbv7em-none-eabihf" :=
  (resolve_build_target_spec (some "thumbv7em-none-eabihf") none).1
    "thumbv7em-none-eabihf" rfl

theorem find_executable_empty_names (base : List String)
    (build_mode build_target : Option String) (walk : List WalkItem) :
    find_executable base walk [] build_mode build_target = .notFound := by
  have hn : namedFiles [] walk = [] := by
    simp [namedFiles]
  simp [find_executable, survivors, hn]

/-- C8: with no explicit artifact name and a package declaring no binary
or example targets, the resolved name set is empty with no separate
empty-input error, and whenever the earlier configuration and runner
steps succeed the pipeline fails with the unified no-matching-executable
error, whose message is the package name appended to a fixed prefix,
regardless of the walked tree. -/
theorem attach_empty_names_unified_error {α : Type} (pf : String → Option α)
    (pm : α → String → Bool) (sh : String → Option (List String))
    (args : Args) (package : Package) (target_directory : List String)
    (loadRes : Except String (Option Table)) (walk : List WalkItem)
    (cfgOpt : Option Table) (pargs : List String)
    (hflags : (args.release && args.debug) = false)
    (hbin : args.bin = none) (hex : args.exampl = none)
    (htargets : package.targets.filter (fun t => t.is_bin || t.is_example) = [])
    (hload : loadRes = .ok cfgOpt)
    (hprobe : (if args.probe_args.isEmpty then
                 match cfgOpt with
                 | some c => find_probe_args pf pm sh c
                     (resolve_build_target args.target cfgOpt)
                 | none => Except.ok []
               else Except.ok args.probe_args) = Except.ok pargs) :
    binary_names_of args package = [] ∧
    attach pf pm sh args package target_directory loadRes walk =
      .err ("no matching executable found for package " ++ package.name) ∧
    ∃ pre, "no matching executable found for package " ++ package.name =
      pre ++ package.name := by
  have hnames : binary_names_of args package = [] := by
    simp [binary_names_of, hbin, hex, Option.or, htargets]
  refine ⟨hnames, ?_, ⟨"no matching executable found for package ", rfl⟩⟩
  simp only [attach, hflags, Bool.false_eq_true, if_false, hbin,
    Option.isSome_none, Bool.false_and, hload, hnames]
  split
  next e heq =>
    split at heq <;> simp_all
  next config heq =>
    split
    next e2 heq2 =>
      exfalso
      split at heq
      next hc =>
        rw [Except.ok.injEq] at heq
        subst heq
        rw [hprobe] at heq2
        exact Except.noConfusion heq2
      next hc =>
        rw [Except.ok.injEq] at heq
        subst heq
        split at heq2 <;> simp_all
    next pargs2 heq2 =>
      rw [find_executable_empty_names]

theorem attach_empty_names_unified_error_witness :
    binary_names_of ⟨false, false, none, none, none, []⟩ ⟨"pkg", []⟩ = [] ∧
    attach (fun _ => (none : Option Unit)) (fun _ _ => true) (fun _ => some [])
      ⟨false, false, none, none, none, []⟩ ⟨"pkg", []⟩ ["t"] (.ok none) [] =
      .err ("no matching executable found for package " ++ "pkg") ∧
    ∃ pre, "no matching executable found for package " ++ "pkg" =
      pre ++ "pkg" :=
  attach_empty_names_unified_error (fun _ => (none : Option Unit))
    (fun _ _ => true) (fun _ => some []) ⟨false, false, none, none, none, []⟩
    ⟨"pkg", []⟩ ["t"] (.ok none) [] none [] rfl rfl rfl rfl rfl rfl

/-- C9: when trailing probe arguments are given together with an explicit
command-line target triple, attach never consults the configuration
loading outcome: its result is the same as with no configuration file
present, so neither a configuration read error nor a parse error can
surface under that precondition. -/
theorem attach_config_independent {α : Type} (pf : String → Option α)
    (pm : α → String → Bool) (sh : String → Option (List String))
    (args : Args) (package : Package) (target_directory : List String)
    (loadRes : Except String (Option Table)) (walk : List WalkItem)
    (hpargs : args.probe_args ≠ []) (htgt : args.target.isSome = true) :
    attach pf pm sh args package target_directory loadRes walk =
      attach pf pm sh args package target_directory (.ok none) walk := by
  have h1 : args.probe_args.isEmpty = false := by
    rcases hp : args.probe_args with _ | ⟨a, l⟩
    · exact absurd hp hpargs
    · rfl
  have h2 : args.target.isNone = false := by
    rcases ht : args.target with _ | t
    · rw [ht] at htgt
      exact absurd htgt (by simp)
    · rfl
  simp [attach, h1, h2]

theorem attach_config_independent_witness :
    attach (fun _ => (none : Option Unit)) (fun _ _ => true) (fun _ => some [])
      ⟨false, false, some "tr", none, none, ["a"]⟩ ⟨"p", []⟩ ["t"]
      (.error "boom") [] =
      attach (fun _ => (none : Option Unit)) (fun _ _ => true) (fun _ => some [])
        ⟨false, false, some "tr", none, none, ["a"]⟩ ⟨"p", []⟩ ["t"]
        (.ok none) [] :=
  attach_config_independent (fun _ => (none : Option Unit)) (fun _ _ => true)
    (fun _ => some []) ⟨false, false, some "tr", none, none, ["a"]⟩ ⟨"p", []⟩
    ["t"] (.error "boom") [] (by decide) rfl

end CargoAttach
